import Mathlib

/-!
A verification development for the chunk–dispatch–aggregate pipeline of the
AI data processor (source files `src/utils.py`, `src/processing.py`,
`src/decorators.py`, `src/main.py`, `src/config.py`).

Embedding conventions:

* Python integers are `Int` where a subtraction can go negative
  (the chunk budget), otherwise `Nat` (token counts are lengths).
* The tiktoken tokenizer (`utils.Tokenizer.count_tokens`) wraps an external
  library; it is an abstract parameter `tok : String → Nat` (for structured
  input `tokD : PyDict → Nat`, the count of its JSON dump).
* The external generation service is an abstract oracle
  `llm : String → CallPayload → String` taking the instruction and the data
  part of the prompt; every call the pipeline makes is logged as an
  `LlmCall` so that theorems can speak about the number of calls and the
  instruction used in each.
* `async` control flow is embedded as deterministic sequential evaluation.
  `utils.gather_with_concurrency` additionally gets a labelled transition
  system (semaphore + per-task status) for the concurrency claim.
* The unbounded recursion of `AIProcessor.aggregate_results` is embedded
  with explicit fuel: `none` means the computation has not finished within
  the given fuel, and a result that is `none` for every fuel is a
  non-terminating run.
* Python dictionaries / lists of the request payload are the mutual
  inductives `PyVal` / `PyList` / `PyDict`; `str(v)` for values nested in a
  list is modelled with single-quoted string elements (Python switches to
  double quotes when the text holds a quote; no claim depends on that case).
-/

/-- `Config.MAX_CONTEXT_TOKENS` default value (config.py). -/
def MAX_CONTEXT_TOKENS : Nat := 200000

/-- `Config.MAX_OUTPUT_TOKENS` default value (config.py); `main.py` repeats
the same constant as its own `MAX_OUTPUT_TOKENS`. -/
def MAX_OUTPUT_TOKENS : Nat := 4096

/-- `main.GLOBAL_TOKEN_LIMIT`. -/
def GLOBAL_TOKEN_LIMIT : Nat := 1000000

/-! ## Chunker: `utils.chunk_text` -/

/-- The loop of `utils.chunk_text`: walks the objects left to right carrying
the pending chunk (`cur`) and its running token count (`cnt`, which the
source keeps equal to the token sum of `cur`).  The budget is an `Int`
because the caller passes `MAX_CONTEXT_TOKENS - count_tokens(user prefix)`,
a Python int that may be negative. -/
def chunkLoop (tok : String → Nat) (maxTokens : Int) :
    List String → List String → Nat → List (List String)
  | [], cur, _ => if cur = [] then [] else [cur]
  | obj :: objs, cur, cnt =>
      if (cnt : Int) + (tok obj : Int) > maxTokens then
        (if cur = [] then [] else [cur]) ++ chunkLoop tok maxTokens objs [obj] (tok obj)
      else
        chunkLoop tok maxTokens objs (cur ++ [obj]) (cnt + tok obj)

/-- `utils.chunk_text(objects, max_tokens, tokenizer)`: starts with an empty
pending chunk and count 0. -/
def chunk_text (tok : String → Nat) (objects : List String) (maxTokens : Int) :
    List (List String) :=
  chunkLoop tok maxTokens objects [] 0

/-- Token sum of a chunk. -/
def chunkSum (tok : String → Nat) (c : List String) : Nat := (c.map tok).sum

/-- A chunk the spec allows: within budget, or a singleton whose only unit is
itself over budget. -/
def goodChunk (tok : String → Nat) (maxTokens : Int) (c : List String) : Prop :=
  (chunkSum tok c : Int) ≤ maxTokens ∨ ∃ u, c = [u] ∧ (tok u : Int) > maxTokens

theorem chunkLoop_join (tok : String → Nat) (maxTokens : Int) :
    ∀ (objs cur : List String) (cnt : Nat),
      (chunkLoop tok maxTokens objs cur cnt).flatten = cur ++ objs := by
  intro objs
  induction objs with
  | nil =>
      intro cur cnt
      by_cases h : cur = [] <;> simp [chunkLoop, h]
  | cons o os ih =>
      intro cur cnt
      by_cases h : (cnt : Int) + (tok o : Int) > maxTokens
      · by_cases hc : cur = [] <;>
          simp [chunkLoop, h, hc, ih]
      · simp [chunkLoop, h, ih]

theorem chunkLoop_good (tok : String → Nat) (maxTokens : Int) :
    ∀ (objs cur : List String) (cnt : Nat),
      cnt = chunkSum tok cur → (cur = [] ∨ goodChunk tok maxTokens cur) →
      ∀ c ∈ chunkLoop tok maxTokens objs cur cnt, c ≠ [] ∧ goodChunk tok maxTokens c := by
  intro objs
  induction objs with
  | nil =>
      intro cur cnt hcnt hgood c hc
      by_cases h : cur = []
      · simp [chunkLoop, h] at hc
      · simp [chunkLoop, h] at hc
        subst hc
        exact ⟨h, hgood.resolve_left h⟩
  | cons o os ih =>
      intro cur cnt hcnt hgood c hc
      by_cases h : (cnt : Int) + (tok o : Int) > maxTokens
      · simp only [chunkLoop, if_pos h] at hc
        rcases List.mem_append.mp hc with hm | hm
        · by_cases hcur : cur = []
          · simp [hcur] at hm
          · simp [hcur] at hm
            subst hm
            exact ⟨hcur, hgood.resolve_left hcur⟩
        · refine ih [o] (tok o) (by simp [chunkSum]) ?_ c hm
          right
          by_cases ho : (tok o : Int) ≤ maxTokens
          · exact Or.inl (by simpa [chunkSum] using ho)
          · exact Or.inr ⟨o, rfl, by omega⟩
      · simp only [chunkLoop, if_neg h] at hc
        refine ih (cur ++ [o]) (cnt + tok o) (by simp [chunkSum, hcnt]) ?_ c hc
        right
        left
        have : ((cnt + tok o : Nat) : Int) ≤ maxTokens := by push_cast; omega
        simpa [chunkSum, hcnt] using this

/-- C3: `chunk_text` preserves order and content (its chunks concatenate back
to the input, so nothing is omitted or duplicated), every chunk is non-empty
and within the token budget except a singleton chunk holding one over-budget
unit, and the empty input yields no chunks. -/
theorem chunk_text_correct (tok : String → Nat) (objects : List String) (maxTokens : Int) :
    (chunk_text tok objects maxTokens).flatten = objects ∧
    (∀ c ∈ chunk_text tok objects maxTokens, c ≠ [] ∧ goodChunk tok maxTokens c) ∧
    chunk_text tok [] maxTokens = [] := by
  refine ⟨?_, ?_, rfl⟩
  · simpa using chunkLoop_join tok maxTokens objects [] 0
  · exact chunkLoop_good tok maxTokens objects [] 0 (by simp [chunkSum]) (Or.inl rfl)

/-- Witness for C3 at a concrete input: two units of 2 tokens each with
budget 3 give two singleton chunks. -/
theorem chunk_text_correct_witness :
    (chunk_text String.length ["ab", "cd"] 3).flatten = ["ab", "cd"] ∧
    (∀ c ∈ chunk_text String.length ["ab", "cd"] 3, c ≠ [] ∧ goodChunk String.length 3 c) ∧
    chunk_text String.length [] 3 = [] :=
  chunk_text_correct String.length ["ab", "cd"] 3

/-! ## RateGovernor: `main.validate_global_tokens`, the token ledger and the
periodic reset task -/

/-- FastAPI's `HTTPException(status_code, detail)`, as far as the core uses it. -/
structure HTTPException where
  status : Nat
  detail : String
deriving DecidableEq

/-- The Python exceptions the embedded code can raise.  `httpExc` is an
`HTTPException` raised inside a `try` block (FastAPI's `HTTPException` is an
`Exception` subclass, so a generic `except Exception` catches it too). -/
inductive PyExn where
  | attributeError (msg : String)
  | typeError (msg : String)
  | valueError (msg : String)
  | httpExc (status : Nat) (detail : String)
deriving DecidableEq

/-- Python `str(e)` for the modelled exceptions (Starlette's
`HTTPException.__str__` renders `"{status}: {detail}"`). -/
def pyExnStr : PyExn → String
  | .attributeError m => m
  | .typeError m => m
  | .valueError m => m
  | .httpExc s d => toString s ++ ": " ++ d

/-- The `try` body of `main.validate_global_tokens`: reject by raising
`HTTPException(429, ...)` when the running total plus the projected request
cost would exceed the global ceiling, otherwise add the cost to the total
and return the updated total.  `cost` is
`count_tokens(request.data) + count_tokens(request.user prefix)`. -/
def validateBody (total cost : Nat) : Except PyExn Nat :=
  if GLOBAL_TOKEN_LIMIT < total + cost then
    .error (.httpExc 429 "Global token limit reached. Please try again later.")
  else
    .ok (total + cost)

/-- `main.validate_global_tokens`: the body above with its exception
handlers.  The `except ValueError` arm rewraps as a 400; the generic
`except Exception` arm rewraps anything else — including the deliberately
raised 429 — as `HTTPException(500, "Unexpected error: " + str(e))`. -/
def validate_global_tokens (total cost : Nat) : Except HTTPException Nat :=
  match validateBody total cost with
  | .ok t => .ok t
  | .error (.valueError m) => .error ⟨400, "Invalid input: " ++ m⟩
  | .error e => .error ⟨500, "Unexpected error: " ++ pyExnStr e⟩

/-- Whether an `Except` is a success. -/
def isOkE : Except ε α → Bool
  | .ok _ => true
  | .error _ => false

/-- C4 counterexample: with the ledger freshly reset to zero, the request
projecting cost `ceiling - C + 1` for `C = 0` (that is, cost ceiling + 1) is
still rejected, so "the same request is admitted after a window reset" fails
at `C = 0`; the rejection also surfaces as a 500 wrapping the 429 message,
because the raised 429 is caught by the handler's own `except Exception`. -/
theorem validate_after_reset_rejected_at_zero :
    validate_global_tokens 0 (GLOBAL_TOKEN_LIMIT - 0 + 1) =
      .error ⟨500, "Unexpected error: 429: Global token limit reached. Please try again later."⟩ ∧
    isOkE (validate_global_tokens 0 (GLOBAL_TOKEN_LIMIT - 0 + 1)) = false := by
  exact ⟨rfl, rfl⟩

/-- C4 (amended): admission control rejects exactly when
`total + cost > ceiling` (the rejection surfacing as a 500 that wraps the
429 capacity message) and otherwise adds the projected cost to the ledger;
for `1 ≤ C < ceiling` a request costing `ceiling - C + 1` is rejected at
ledger total `C` and admitted at total `0` (after a window reset). -/
theorem validate_global_tokens_correct (total cost : Nat) :
    (GLOBAL_TOKEN_LIMIT < total + cost →
      validate_global_tokens total cost =
        .error ⟨500, "Unexpected error: 429: Global token limit reached. Please try again later."⟩) ∧
    (total + cost ≤ GLOBAL_TOKEN_LIMIT →
      validate_global_tokens total cost = .ok (total + cost)) ∧
    (∀ C : Nat, 1 ≤ C → C < GLOBAL_TOKEN_LIMIT →
      isOkE (validate_global_tokens C (GLOBAL_TOKEN_LIMIT - C + 1)) = false ∧
      isOkE (validate_global_tokens 0 (GLOBAL_TOKEN_LIMIT - C + 1)) = true) := by
  refine ⟨?_, ?_, ?_⟩
  · intro h
    simp only [validate_global_tokens, validateBody, if_pos h]
    rfl
  · intro h
    simp [validate_global_tokens, validateBody, Nat.not_lt.mpr h]
  · intro C h1 h2
    constructor
    · have h : GLOBAL_TOKEN_LIMIT < C + (GLOBAL_TOKEN_LIMIT - C + 1) := by omega
      simp [validate_global_tokens, validateBody, if_pos h, isOkE]
    · have h : ¬ GLOBAL_TOKEN_LIMIT < GLOBAL_TOKEN_LIMIT - C + 1 := by omega
      simp [validate_global_tokens, validateBody, if_neg h, isOkE]

/-- Witness for C4's amended theorem at `total = 2`, `cost = 3`. -/
theorem validate_global_tokens_correct_witness :
    (GLOBAL_TOKEN_LIMIT < 2 + 3 →
      validate_global_tokens 2 3 =
        .error ⟨500, "Unexpected error: 429: Global token limit reached. Please try again later."⟩) ∧
    (2 + 3 ≤ GLOBAL_TOKEN_LIMIT → validate_global_tokens 2 3 = .ok (2 + 3)) ∧
    (∀ C : Nat, 1 ≤ C → C < GLOBAL_TOKEN_LIMIT →
      isOkE (validate_global_tokens C (GLOBAL_TOKEN_LIMIT - C + 1)) = false ∧
      isOkE (validate_global_tokens 0 (GLOBAL_TOKEN_LIMIT - C + 1)) = true) :=
  validate_global_tokens_correct 2 3

/-- The three writers of `main.global_token_usage["total_tokens"]`. -/
inductive LedgerOp where
  | admitReq (cost : Nat)
  | reconcile (out : Nat)
  | reset

/-- Effect of one ledger operation on the running total: admission goes
through `validate_global_tokens` (rejected = `none`, the total unchanged);
reconciliation (`main.process_data`: `total_tokens += output_token_count`)
adds unconditionally; the periodic reset sets the total to zero. -/
def ledgerStep : LedgerOp → Nat → Option Nat
  | .admitReq cost, total =>
      match validate_global_tokens total cost with
      | .ok t => some t
      | .error _ => none
  | .reconcile out, total => some (total + out)
  | .reset, _ => some 0

/-- C5: whenever an admission succeeds, the resulting ledger total is within
the global ceiling; and the only ledger operation that ever decreases the
total is the periodic reset, which sets it to zero. -/
theorem ledger_admission_within_ceiling (op : LedgerOp) (t t' : Nat)
    (h : ledgerStep op t = some t') :
    ((∃ c, op = LedgerOp.admitReq c) → t' ≤ GLOBAL_TOKEN_LIMIT) ∧
    (t' < t → op = LedgerOp.reset ∧ t' = 0) := by
  cases op with
  | admitReq cost =>
      constructor
      · intro _
        by_cases hc : GLOBAL_TOKEN_LIMIT < t + cost
        · simp [ledgerStep, validate_global_tokens, validateBody, if_pos hc] at h
        · simp [ledgerStep, validate_global_tokens, validateBody, if_neg hc] at h
          omega
      · intro hlt
        by_cases hc : GLOBAL_TOKEN_LIMIT < t + cost
        · simp [ledgerStep, validate_global_tokens, validateBody, if_pos hc] at h
        · simp [ledgerStep, validate_global_tokens, validateBody, if_neg hc] at h
          omega
  | reconcile out =>
      simp [ledgerStep] at h
      constructor
      · rintro ⟨c, hc⟩
        exact absurd hc (by simp)
      · intro hlt
        omega
  | reset =>
      simp [ledgerStep] at h
      exact ⟨by rintro ⟨c, hc⟩; exact absurd hc (by simp), fun _ => ⟨rfl, by omega⟩⟩

/-- Witness for C5 at a concrete step: a reset from total 5. -/
theorem ledger_admission_within_ceiling_witness :
    ((∃ c, LedgerOp.reset = LedgerOp.admitReq c) → 0 ≤ GLOBAL_TOKEN_LIMIT) ∧
    ((0 : Nat) < 5 → LedgerOp.reset = LedgerOp.reset ∧ (0 : Nat) = 0) :=
  ledger_admission_within_ceiling LedgerOp.reset 5 0 rfl

/-- `main.global_token_usage`: the running total and the reset timestamp, in
seconds.  `main` initializes the reset time to startup + 60 minutes. -/
structure TokenUsage where
  total_tokens : Nat
  reset_time : Nat
deriving DecidableEq

/-- The startup value of `main.global_token_usage`:
`reset_time = utcnow() + timedelta(minutes=60)`. -/
def initTokenUsage (startup total : Nat) : TokenUsage :=
  { total_tokens := total, reset_time := startup + 3600 }

/-- One iteration of the `main.reset_global_tokens` loop body, observed at
wall-clock second `now`: if the boundary has been reached, zero the total and
move the boundary to `now + timedelta(minutes=1)`; otherwise do nothing. -/
def resetTick (now : Nat) (s : TokenUsage) : TokenUsage :=
  if s.reset_time ≤ now then { total_tokens := 0, reset_time := now + 60 } else s

theorem resetTick_before (now : Nat) (s : TokenUsage) (h : now < s.reset_time) :
    resetTick now s = s := by
  simp [resetTick, Nat.not_le.mpr h]

/-- C10: the reset task's window boundary starts at 60 minutes after startup;
any sequence of loop iterations all observed before that boundary leaves the
ledger untouched (no reset in the first 60 minutes); and whenever an
iteration does fire, the next boundary is 1 minute after the firing time. -/
theorem reset_global_tokens_windows (startup total : Nat) (ticks : List Nat)
    (h : ∀ t ∈ ticks, t < startup + 3600) :
    (initTokenUsage startup total).reset_time = startup + 3600 ∧
    ticks.foldl (fun s t => resetTick t s) (initTokenUsage startup total) =
      initTokenUsage startup total ∧
    (∀ now s, s.reset_time ≤ now →
      resetTick now s = { total_tokens := 0, reset_time := now + 60 }) := by
  refine ⟨rfl, ?_, ?_⟩
  · induction ticks with
    | nil => rfl
    | cons t ts ih =>
        have ht : t < startup + 3600 := h t (by simp)
        have : resetTick t (initTokenUsage startup total) = initTokenUsage startup total :=
          resetTick_before t _ (by simpa [initTokenUsage] using ht)
        simpa [this] using ih (fun u hu => h u (by simp [hu]))
  · intro now s hle
    simp [resetTick, hle]

/-- Witness for C10: two ticks in the first hour change nothing. -/
theorem reset_global_tokens_windows_witness :
    (initTokenUsage 100 7).reset_time = 100 + 3600 ∧
    ([200, 3000] : List Nat).foldl (fun s t => resetTick t s) (initTokenUsage 100 7) =
      initTokenUsage 100 7 ∧
    (∀ now s, s.reset_time ≤ now →
      resetTick now s = { total_tokens := 0, reset_time := now + 60 }) :=
  reset_global_tokens_windows 100 7 [200, 3000] (by intro t ht; fin_cases ht <;> omega)

/-! ## ChunkProcessor retry: `decorators.retry` and
`processing.AIProcessor.process_chunk` -/

/-- `decorators.LlmCallError(message, error_code)`. -/
structure LlmCallError where
  message : String
  error_code : Nat
deriving DecidableEq

/-- An un-awaited coroutine, as created by calling an `async def` function:
creating it runs none of the body; awaiting it (applying it to `()`) runs
the body, which for `process_chunk` makes one generation-service call.  The
result carries the awaited outcome and the number of service calls that
await made. -/
def Coroutine : Type := Unit → Except LlmCallError String × Nat

/-- The body of `AIProcessor.process_chunk`, awaited: one service call
(`svc n` is the service's outcome when the coroutine created by the `n`-th
evaluation of the function is awaited); any exception from the service is
rewrapped as `LlmCallError("LLm Call Failed: ", 503)`.  The second
component counts the service invocations this await makes (always 1). -/
def awaitProcessChunkBody (svc : Nat → Except Unit String) (n : Nat) :
    Except LlmCallError String × Nat :=
  match svc n with
  | .ok t => (.ok t, 1)
  | .error _ => (.error ⟨"LLm Call Failed: ", 503⟩, 1)

/-- The `while` loop of `decorators.retry(times, ...)`.  `newfn` is a plain
synchronous function: each iteration evaluates `func(*args, **kwargs)`
inside a `try` and returns its value, catching an `LlmCallError` raised BY
THAT EVALUATION; after the loop the evaluation happens once more outside
any `try`.  `call n` is what the `n`-th evaluation of `func` itself does;
the result is paired with how many evaluations were made.  Crucially, when
`func` is an `async def` — as in `process_chunk` — an evaluation only
creates a coroutine and can raise nothing, so the catch-and-retry arm is
dead code: the wrapper returns the attempt-0 coroutine on its first
iteration (see `retryRun_of_async`). -/
def retryGo (call : Nat → Except LlmCallError Coroutine) :
    Nat → Nat → Except LlmCallError Coroutine × Nat
  | calls, 0 => (call calls, calls + 1)
  | calls, remaining + 1 =>
      match call calls with
      | .ok v => (.ok v, calls + 1)
      | .error _ => retryGo call (calls + 1) remaining

/-- `decorators.retry(times)(func)` applied from a fresh attempt counter. -/
def retryRun (times : Nat) (call : Nat → Except LlmCallError Coroutine) :
    Except LlmCallError Coroutine × Nat :=
  retryGo call 0 times

/-- `AIProcessor.process_chunk` as the caller executes it:
`retry(times=3, exceptions=(LlmCallError))` wraps the `async def`, so
calling the wrapped function evaluates `func(...)` — which only creates the
attempt-0 coroutine — and returns it from inside the `try`; the caller
(`gather_with_concurrency`) then awaits that coroutine, which is where the
single service call happens and where an `LlmCallError` is raised, outside
the wrapper's `try`.  Returns the awaited outcome and the number of
service calls made.  (The `.error` arm is unreachable: evaluating an
`async def` raises nothing.) -/
def process_chunk (svc : Nat → Except Unit String) : Except LlmCallError String × Nat :=
  match (retryRun 3 (fun n => .ok (fun _ => awaitProcessChunkBody svc n))).1 with
  | .ok co => co ()
  | .error e => (.error e, 0)

theorem retryRun_of_async (times : Nat) (mk : Nat → Coroutine) :
    retryRun times (fun n => .ok (mk n)) = (.ok (mk 0), 1) := by
  cases times with
  | zero => rfl
  | succ r => rfl

/-- C2: the retry decorator around the async `process_chunk` is inert — the
decorated call behaves exactly as a single un-retried await of the
attempt-0 body — so when the generation service signals a transient
failure, it is invoked exactly once and the `LlmCallError` carrying the
distinguishing code 503 propagates to the caller with zero re-invocations,
not with the 3-attempt ceiling the claim states. -/
theorem process_chunk_no_retry (svc : Nat → Except Unit String)
    (h : ∀ n, svc n = .error ()) :
    process_chunk svc = awaitProcessChunkBody svc 0 ∧
    process_chunk svc = (.error ⟨"LLm Call Failed: ", 503⟩, 1) := by
  have hgen : process_chunk svc = awaitProcessChunkBody svc 0 := by
    rw [process_chunk, retryRun_of_async 3 (fun n _ => awaitProcessChunkBody svc n)]
  refine ⟨hgen, ?_⟩
  rw [hgen, awaitProcessChunkBody, h 0]

/-- Witness for C2's theorem with the always-failing service. -/
theorem process_chunk_no_retry_witness :
    process_chunk (fun _ => .error ()) = awaitProcessChunkBody (fun _ => .error ()) 0 ∧
    process_chunk (fun _ => .error ()) = (.error ⟨"LLm Call Failed: ", 503⟩, 1) :=
  process_chunk_no_retry (fun _ => .error ()) (fun _ => rfl)

/-! ## The generation-service oracle and `AIProcessor.aggregate_results` -/

/-- The data part of a generation call's prompt: a chunk (the message is
built as `"{user prefix}\n\nData: {chunk}"`, where the chunk is a Python
list of serialized units) or the joined results of an aggregation step
(`"{user prefix}\n\nResults to aggregate:\n{combined}"`). -/
inductive CallPayload where
  | chunkData (chunk : List String)
  | aggData (combined : String)
deriving DecidableEq

/-- One logged generation-service call: the instruction it was given and the
data part of its prompt. -/
structure LlmCall where
  instr : String
  payload : CallPayload
deriving DecidableEq

/-- The generation service as a deterministic oracle from (instruction, data
part) to the returned text. -/
def Llm : Type := String → CallPayload → String

/-- `AIProcessor.aggregate_results(results, user prefix)`, with fuel.  Joins
the results with `"\n\n"`; if the joined text's token count fits in
`MAX_OUTPUT_TOKENS`, makes one generation call and returns its output;
otherwise splits at the midpoint, recursively aggregates both halves and
then the two-element list of their summaries.  Returns the final text and
the log of generation calls (in call order); `none` = fuel exhausted. -/
def aggregate_results (llm : Llm) (tok : String → Nat) (instr : String) :
    Nat → List String → Option (String × List LlmCall)
  | 0, _ => none
  | fuel + 1, results =>
      let combined := String.intercalate "\n\n" results
      if tok combined ≤ MAX_OUTPUT_TOKENS then
        some (llm instr (.aggData combined), [⟨instr, .aggData combined⟩])
      else
        match aggregate_results llm tok instr fuel (results.take (results.length / 2)) with
        | none => none
        | some (firstHalf, calls1) =>
          match aggregate_results llm tok instr fuel (results.drop (results.length / 2)) with
          | none => none
          | some (secondHalf, calls2) =>
            match aggregate_results llm tok instr fuel [firstHalf, secondHalf] with
            | none => none
            | some (final, calls3) => some (final, calls1 ++ calls2 ++ calls3)

/-- C1: on a one-element result list whose sole element exceeds the output
budget, `aggregate_results` never returns, whatever fuel it is given: the
midpoint split of a 1-element list is `[] / [x]`, so the recursion calls
itself on the same `[x]` again.  (The missing `len(results) <= 1` base case
the spec requires.) -/
theorem aggregate_results_singleton_overbudget_diverges (llm : Llm)
    (tok : String → Nat) (instr x : String)
    (hx : MAX_OUTPUT_TOKENS < tok x) (fuel : Nat) :
    aggregate_results llm tok instr fuel [x] = none := by
  induction fuel with
  | zero => rfl
  | succ n ih =>
      have hco : String.intercalate "\n\n" [x] = x := rfl
      have hnot : ¬ tok (String.intercalate "\n\n" [x]) ≤ MAX_OUTPUT_TOKENS := by
        rw [hco]; omega
      simp only [aggregate_results, if_neg hnot]
      have hdrop : ([x] : List String).drop ([x].length / 2) = [x] := by simp
      cases hfst : aggregate_results llm tok instr n (([x] : List String).take ([x].length / 2)) with
      | none => rfl
      | some p =>
          obtain ⟨firstHalf, calls1⟩ := p
          rw [hdrop, ih]

/-- Witness for C1's divergence theorem: with a tokenizer counting 5000
tokens for every text, the singleton aggregation finds no result within
fuel 5. -/
theorem aggregate_results_singleton_overbudget_diverges_witness :
    aggregate_results (fun _ _ => "") (fun _ => 5000) "p" 5 ["r"] = none :=
  aggregate_results_singleton_overbudget_diverges (fun _ _ => "") (fun _ => 5000) "p" "r"
    (by decide) 5

/-! ## Serializer: `utils.process_json` -/

mutual
/-- A Python/JSON value of the request payload. -/
inductive PyVal where
  | str (s : String)
  | int (n : Int)
  | list (l : PyList)
  | dict (d : PyDict)
/-- A Python list of values. -/
inductive PyList where
  | nil
  | cons (v : PyVal) (tl : PyList)
/-- A Python dict in its native (insertion) iteration order. -/
inductive PyDict where
  | nil
  | cons (k : String) (v : PyVal) (tl : PyDict)
end

/-- Spine induction for `PyDict` (the `induction` tactic cannot use the
mutual recursor directly). -/
theorem PyDict.spineInd (P : PyDict → Prop) (h0 : P .nil)
    (h1 : ∀ k v tl, P tl → P (.cons k v tl)) : ∀ d, P d
  | .nil => h0
  | .cons k v tl => h1 k v tl (PyDict.spineInd P h0 h1 tl)

/-- The entries of a `PyDict` as a Lean list, in native order. -/
def toPairs : PyDict → List (String × PyVal)
  | .nil => []
  | .cons k v tl => (k, v) :: toPairs tl

/-- Python `str.replace(' ', '')`: removes space characters (U+0020) only. -/
def removeSpaces (s : String) : String :=
  String.mk (s.data.filter (fun c => c ≠ ' '))

/-- Removal of every whitespace character, as the spec's words ("internal
whitespace stripped") would have it; written for comparison with
`removeSpaces`, which is what the source does. -/
def stripWhitespace (s : String) : String :=
  String.mk (s.data.filter (fun c => ¬ c.isWhitespace))

mutual
/-- `utils.process_json.dict_to_string(d)`: brace-delimited, comma-joined
`'key': 'value'` entries in the dict's native iteration order. -/
def dict_to_string (d : PyDict) : String :=
  "\x7b" ++ String.intercalate ", " (dictEntries d) ++ "\x7d"
/-- The `result` list built by `dict_to_string`'s loop, one `'k': 'v'`
string per entry. -/
def dictEntries : PyDict → List String
  | .nil => []
  | .cons k v tl => ("'" ++ k ++ "': '" ++ valueStr v ++ "'") :: dictEntries tl
/-- The value part of one entry: a nested dict is recursively serialized
(and not space-stripped); any other value is `str(v).replace(' ', '')`. -/
def valueStr : PyVal → String
  | .dict d => dict_to_string d
  | .str s => removeSpaces s
  | .int n => removeSpaces (toString n)
  | .list l => removeSpaces ("[" ++ String.intercalate ", " (reprList l) ++ "]")
/-- Python `str` of a list renders the reprs of its elements.  (Simplified:
string elements are single-quoted without Python's quote-switching; no claim
exercises list-valued fields.) -/
def reprList : PyList → List String
  | .nil => []
  | .cons v tl => reprElemStr v :: reprList tl
/-- Simplified Python repr of one list element. -/
def reprElemStr : PyVal → String
  | .str s => "'" ++ s ++ "'"
  | .int n => toString n
  | .list l => "[" ++ String.intercalate ", " (reprList l) ++ "]"
  | .dict d => dict_to_string d
end

/-- C8 counterexample: a scalar value holding a tab keeps it — the source
removes only space characters (`str(v).replace(' ', '')`), not all internal
whitespace. -/
theorem dict_to_string_keeps_tab :
    dict_to_string (PyDict.cons "k" (PyVal.str "a\tb") PyDict.nil) = "\x7b'k': 'a\tb'\x7d" ∧
    dict_to_string (PyDict.cons "k" (PyVal.str "a\tb") PyDict.nil) ≠
      "\x7b'k': '" ++ stripWhitespace "a\tb" ++ "'\x7d" := by
  constructor
  · simp only [dict_to_string, dictEntries, valueStr, removeSpaces]
    rfl
  · simp only [dict_to_string, dictEntries, valueStr, removeSpaces]
    decide

theorem dictEntries_eq (d : PyDict) :
    dictEntries d =
      (toPairs d).map (fun kv => "'" ++ kv.1 ++ "': '" ++ valueStr kv.2 ++ "'") := by
  induction d using PyDict.spineInd with
  | h0 => simp [dictEntries, toPairs]
  | h1 k v tl ih => simp [dictEntries, toPairs, ih]

/-- C8 (amended): the serializer produces a brace-delimited, comma-joined
`'key': 'value'` rendering with the keys in the record's native iteration
order; a nested-mapping value is recursively serialized; a scalar value is
its Python string form with the space characters removed (other whitespace,
e.g. a tab, is kept). -/
theorem dict_to_string_spec (d : PyDict) :
    dict_to_string d =
      "\x7b" ++ String.intercalate ", "
        ((toPairs d).map (fun kv => "'" ++ kv.1 ++ "': '" ++ valueStr kv.2 ++ "'")) ++ "\x7d" ∧
    (∀ d2, valueStr (.dict d2) = dict_to_string d2) ∧
    (∀ s, valueStr (.str s) = removeSpaces s) ∧
    (∀ n, valueStr (.int n) = removeSpaces (toString n)) := by
  refine ⟨?_, ?_, ?_, ?_⟩
  · rw [dict_to_string, dictEntries_eq]
  · intro d2; simp [valueStr]
  · intro s; simp [valueStr]
  · intro n; simp [valueStr]

/-- Witness for C8's amended theorem at a two-key record with a nested map. -/
theorem dict_to_string_spec_witness :
    dict_to_string (PyDict.cons "a" (PyVal.str "x y") (PyDict.cons "b"
        (PyVal.dict (PyDict.cons "c" (PyVal.int 3) PyDict.nil)) PyDict.nil)) =
      "\x7b" ++ String.intercalate ", "
        ((toPairs (PyDict.cons "a" (PyVal.str "x y") (PyDict.cons "b"
            (PyVal.dict (PyDict.cons "c" (PyVal.int 3) PyDict.nil)) PyDict.nil))).map
          (fun kv => "'" ++ kv.1 ++ "': '" ++ valueStr kv.2 ++ "'")) ++ "\x7d" ∧
    (∀ d2, valueStr (.dict d2) = dict_to_string d2) ∧
    (∀ s, valueStr (.str s) = removeSpaces s) ∧
    (∀ n, valueStr (.int n) = removeSpaces (toString n)) :=
  dict_to_string_spec _

/-! ## The pipeline: `AIProcessor.process_data` -/

/-- Python `'tickets' in data` / `data['tickets']` on a dict. -/
def dictLookup (k : String) : PyDict → Option PyVal
  | .nil => none
  | .cons k2 v tl => if k2 = k then some v else dictLookup k tl

/-- Python truthiness of a dict: non-empty. -/
def dictNonempty : PyDict → Bool
  | .nil => false
  | .cons _ _ _ => true

/-- The keys of a dict, in native order. -/
def dictKeys : PyDict → List String
  | .nil => []
  | .cons k _ tl => k :: dictKeys tl

/-- A `PyList` as a Lean list. -/
def pyListToList : PyList → List PyVal
  | .nil => []
  | .cons v tl => v :: pyListToList tl

/-- Python's type name of a value, as it appears in error messages. -/
def pyTypeName : PyVal → String
  | .str _ => "str"
  | .int _ => "int"
  | .list _ => "list"
  | .dict _ => "dict"

/-- Python `for ticket in data:` over the `tickets` value: a list yields its
elements, a dict its keys (as strings), a string its characters (as
1-character strings); an int is not iterable and raises a `TypeError`. -/
def iterTickets : PyVal → Except PyExn (List PyVal)
  | .list l => .ok (pyListToList l)
  | .dict d => .ok ((dictKeys d).map PyVal.str)
  | .str s => .ok (s.data.map (fun c => PyVal.str (String.mk [c])))
  | .int _ => .error (.typeError "'int' object is not iterable")

/-- `dict_to_string(ticket)` with Python's duck typing: a non-dict ticket
raises `AttributeError` at `d.items()`. -/
def dictToStringChecked : PyVal → Except PyExn String
  | .dict d => .ok (dict_to_string d)
  | v => .error (.attributeError ("'" ++ pyTypeName v ++ "' object has no attribute 'items'"))

/-- `utils.process_json(data)`: one serialized string per ticket, in order;
the first non-dict ticket raises. -/
def process_json : List PyVal → Except PyExn (List String)
  | [] => .ok []
  | t :: ts =>
      match dictToStringChecked t with
      | .error e => .error e
      | .ok s =>
          match process_json ts with
          | .error e => .error e
          | .ok rest => .ok (s :: rest)

/-- The serialized units `AIProcessor.process_data` feeds to the chunker:
`process_json(data['tickets']) if data and 'tickets' in data else ''`.
The `else` branch's `''` iterates as zero units. -/
def ticketsUnits (data : PyDict) : Except PyExn (List String) :=
  if dictNonempty data then
    match dictLookup "tickets" data with
    | some v =>
        match iterTickets v with
        | .error e => .error e
        | .ok ts => process_json ts
    | none => .ok []
  else .ok []

/-- The batches of `for i in range(0, len(chunks), max_concurrency)`:
left-to-right groups of `k` chunks (the last may be smaller).  `acc` is the
group being filled. -/
def groupBatchesAux (k : Nat) : List α → List α → List (List α)
  | [], acc => if acc.isEmpty then [] else [acc]
  | x :: xs, acc =>
      if k ≤ (acc ++ [x]).length then (acc ++ [x]) :: groupBatchesAux k xs []
      else groupBatchesAux k xs (acc ++ [x])

/-- The batch slices `chunks[i:i+max_concurrency]`, in order. -/
def groupBatches (k : Nat) (l : List α) : List (List α) :=
  groupBatchesAux k l []

theorem groupBatchesAux_flatten (k : Nat) :
    ∀ (l acc : List α), (groupBatchesAux k l acc).flatten = acc ++ l := by
  intro l
  induction l with
  | nil =>
      intro acc
      by_cases h : acc.isEmpty <;>
        simp_all [groupBatchesAux, List.isEmpty_iff]
  | cons x xs ih =>
      intro acc
      by_cases h : k ≤ acc.length + 1 <;>
        simp [groupBatchesAux, h, ih]

theorem groupBatches_flatten (k : Nat) (l : List α) :
    (groupBatches k l).flatten = l := by
  simpa using groupBatchesAux_flatten k l []

/-- The fixed aggregation instruction hard-coded in
`AIProcessor.process_data`'s call to `aggregate_results`. -/
def AGG_INSTRUCTION : String :=
  "Aggregate these results coherently. If there is nothing to aggregate, return the original data without saying anything extra. Don't say 'Here is the aggregated result:' or anything like that."

/-- `AIProcessor.process_data(data, user prefix, max_concurrency)`: serialize
the tickets, chunk them with budget `MAX_CONTEXT_TOKENS` minus the
instruction's token count, process the chunks in batches of
`max_concurrency` (the oracle is deterministic, so the bounded-concurrency
dispatch is order-preserving sequential evaluation here), then aggregate
with the hard-coded aggregation instruction.  Returns the final text and
the ordered log of generation calls; `.ok none` = the aggregation ran out
of fuel (did not terminate). -/
def process_data (llm : Llm) (tok : String → Nat) (fuel : Nat)
    (data : PyDict) (instr : String) (max_concurrency : Nat) :
    Except PyExn (Option (String × List LlmCall)) :=
  match ticketsUnits data with
  | .error e => .error e
  | .ok units =>
      let chunks := chunk_text tok units ((MAX_CONTEXT_TOKENS : Int) - (tok instr : Int))
      let batches := groupBatches max_concurrency chunks
      let results := (batches.map (fun b => b.map (fun c => llm instr (.chunkData c)))).flatten
      let chunkCalls := (batches.map (fun b => b.map
          (fun c => ({ instr := instr, payload := .chunkData c } : LlmCall)))).flatten
      match aggregate_results llm tok AGG_INSTRUCTION fuel results with
      | none => .ok none
      | some (final, aggCalls) => .ok (some (final, chunkCalls ++ aggCalls))

theorem aggregate_results_calls_instr (llm : Llm) (tok : String → Nat) (instr : String) :
    ∀ (fuel : Nat) (results : List String) (r : String) (cs : List LlmCall),
      aggregate_results llm tok instr fuel results = some (r, cs) →
      ∀ c ∈ cs, c.instr = instr := by
  intro fuel
  induction fuel with
  | zero =>
      intro results r cs h
      simp [aggregate_results] at h
  | succ n ih =>
      intro results r cs h c hc
      simp only [aggregate_results] at h
      by_cases hcond : tok (String.intercalate "\n\n" results) ≤ MAX_OUTPUT_TOKENS
      · rw [if_pos hcond] at h
        simp only [Option.some.injEq, Prod.mk.injEq] at h
        obtain ⟨-, hcs⟩ := h
        subst hcs
        simp only [List.mem_singleton] at hc
        subst hc
        rfl
      · rw [if_neg hcond] at h
        split at h
        · simp at h
        · rename_i firstHalf calls1 hfst
          split at h
          · simp at h
          · rename_i secondHalf calls2 hsnd
            split at h
            · simp at h
            · rename_i final calls3 hthd
              simp only [Option.some.injEq, Prod.mk.injEq] at h
              obtain ⟨-, hcs⟩ := h
              subst hcs
              rcases List.mem_append.mp hc with hm | hm
              · rcases List.mem_append.mp hm with hm1 | hm2
                · exact ih _ _ _ hfst c hm1
                · exact ih _ _ _ hsnd c hm2
              · exact ih _ _ _ hthd c hm

/-- C7 counterexample: a pipeline run with user instruction `"P"` makes its
per-chunk call with instruction `"P"` but its aggregation call with the
hard-coded `AGG_INSTRUCTION`, which is not `"P"`: the chunk budget is
context window minus the instruction's token count, but the aggregation
calls do not reuse the user instruction. -/
theorem process_data_agg_instruction_not_user :
    process_data (fun _ _ => "ok") String.length 1
        (PyDict.cons "tickets" (PyVal.list (PyList.cons
          (PyVal.dict (PyDict.cons "a" (PyVal.str "b") PyDict.nil)) PyList.nil)) PyDict.nil)
        "P" 5
      = .ok (some ("ok",
          [⟨"P", .chunkData ["\x7b'a': 'b'\x7d"]⟩,
           ⟨AGG_INSTRUCTION, .aggData "ok"⟩])) ∧
    AGG_INSTRUCTION ≠ "P" := by
  constructor
  · have hd : dict_to_string (PyDict.cons "a" (PyVal.str "b") PyDict.nil) = "\x7b'a': 'b'\x7d" := by
      simp only [dict_to_string, dictEntries, valueStr, removeSpaces]
      rfl
    have h0 : ticketsUnits (PyDict.cons "tickets" (PyVal.list (PyList.cons
        (PyVal.dict (PyDict.cons "a" (PyVal.str "b") PyDict.nil)) PyList.nil)) PyDict.nil)
        = .ok [dict_to_string (PyDict.cons "a" (PyVal.str "b") PyDict.nil)] := rfl
    have hu : ticketsUnits (PyDict.cons "tickets" (PyVal.list (PyList.cons
        (PyVal.dict (PyDict.cons "a" (PyVal.str "b") PyDict.nil)) PyList.nil)) PyDict.nil)
        = .ok ["\x7b'a': 'b'\x7d"] := by
      rw [h0, hd]
    simp only [process_data, hu]
    rfl
  · decide

/-- C7 (amended): in every terminating pipeline run, the chunk budget is the
context-window size minus the token count of the user instruction `instr`,
every per-chunk generation call uses `instr`, and every aggregation
generation call uses the fixed built-in `AGG_INSTRUCTION` — not `instr`. -/
theorem process_data_budget_and_instructions (llm : Llm) (tok : String → Nat)
    (fuel : Nat) (data : PyDict) (instr : String) (k : Nat)
    (units : List String) (r : String) (calls : List LlmCall)
    (_hk : 0 < k)
    (hu : ticketsUnits data = .ok units)
    (h : process_data llm tok fuel data instr k = .ok (some (r, calls))) :
    ∃ aggCalls : List LlmCall,
      calls = (chunk_text tok units ((MAX_CONTEXT_TOKENS : Int) - (tok instr : Int))).map
          (fun c => ({ instr := instr, payload := .chunkData c } : LlmCall)) ++ aggCalls ∧
      ∀ c ∈ aggCalls, c.instr = AGG_INSTRUCTION := by
  simp only [process_data, hu] at h
  split at h
  · simp at h
  · rename_i final aggCalls hagg
    simp only [Except.ok.injEq, Option.some.injEq, Prod.mk.injEq] at h
    obtain ⟨-, hcalls⟩ := h
    refine ⟨aggCalls, ?_, ?_⟩
    · rw [← hcalls]
      congr 1
      rw [← List.map_flatten]
      rw [groupBatches_flatten]
    · exact aggregate_results_calls_instr llm tok AGG_INSTRUCTION fuel _ final aggCalls hagg

/-- Witness for C7's amended theorem at the one-ticket run. -/
theorem process_data_budget_and_instructions_witness :
    ∃ aggCalls : List LlmCall,
      ([⟨"P", CallPayload.chunkData ["\x7b'a': 'b'\x7d"]⟩,
        ⟨AGG_INSTRUCTION, CallPayload.aggData "ok"⟩] : List LlmCall) =
        (chunk_text String.length ["\x7b'a': 'b'\x7d"]
            ((MAX_CONTEXT_TOKENS : Int) - (String.length "P" : Int))).map
          (fun c => ({ instr := "P", payload := .chunkData c } : LlmCall)) ++ aggCalls ∧
      ∀ c ∈ aggCalls, c.instr = AGG_INSTRUCTION := by
  refine process_data_budget_and_instructions (fun _ _ => "ok") String.length 1
      (PyDict.cons "tickets" (PyVal.list (PyList.cons
        (PyVal.dict (PyDict.cons "a" (PyVal.str "b") PyDict.nil)) PyList.nil)) PyDict.nil)
      "P" 5 ["\x7b'a': 'b'\x7d"] "ok"
      [⟨"P", CallPayload.chunkData ["\x7b'a': 'b'\x7d"]⟩,
       ⟨AGG_INSTRUCTION, CallPayload.aggData "ok"⟩]
      (by decide) ?_ ?_
  · have hd : dict_to_string (PyDict.cons "a" (PyVal.str "b") PyDict.nil) = "\x7b'a': 'b'\x7d" := by
      simp only [dict_to_string, dictEntries, valueStr, removeSpaces]
      rfl
    have h0 : ticketsUnits (PyDict.cons "tickets" (PyVal.list (PyList.cons
        (PyVal.dict (PyDict.cons "a" (PyVal.str "b") PyDict.nil)) PyList.nil)) PyDict.nil)
        = .ok [dict_to_string (PyDict.cons "a" (PyVal.str "b") PyDict.nil)] := rfl
    rw [h0, hd]
  · have hd : dict_to_string (PyDict.cons "a" (PyVal.str "b") PyDict.nil) = "\x7b'a': 'b'\x7d" := by
      simp only [dict_to_string, dictEntries, valueStr, removeSpaces]
      rfl
    have h0 : ticketsUnits (PyDict.cons "tickets" (PyVal.list (PyList.cons
        (PyVal.dict (PyDict.cons "a" (PyVal.str "b") PyDict.nil)) PyList.nil)) PyDict.nil)
        = .ok [dict_to_string (PyDict.cons "a" (PyVal.str "b") PyDict.nil)] := rfl
    have hu : ticketsUnits (PyDict.cons "tickets" (PyVal.list (PyList.cons
        (PyVal.dict (PyDict.cons "a" (PyVal.str "b") PyDict.nil)) PyList.nil)) PyDict.nil)
        = .ok ["\x7b'a': 'b'\x7d"] := by
      rw [h0, hd]
    simp only [process_data, hu]
    rfl

/-! ## The `/process` endpoint: `main.process_data` with its dependencies -/

/-- Python `str.lower()` (ASCII suffices for the details involved). -/
def strToLower (s : String) : String := String.mk (s.data.map Char.toLower)

/-- Python `needle in hay` on lists (substring containment). -/
def containsSeq [DecidableEq α] : List α → List α → Bool
  | needle, [] => needle.isEmpty
  | needle, h :: t => needle.isPrefixOf (h :: t) || containsSeq needle t

/-- The condition of `main.retry_on_limit_reached`:
`"limit" in str(e.detail).lower()`. -/
def limitMentioned (detail : String) : Bool :=
  containsSeq "limit".data (strToLower detail).data

/-- The `while` loop of `main.retry_on_limit_reached(max_retries)`: `body n`
is the handler body's outcome on its `n`-th run (deterministic here, but
kept indexed); returns the outcome and how many times the body ran.  A
retried run happens only when the caught `HTTPException`'s detail mentions
"limit" and retries can still grow; otherwise the exception is re-raised.
The first component of the fall-through case (`remaining = 0`, only
reachable with `max_retries = 0`) is Python's implicit `return None`. -/
def retryOnLimitGo (body : Nat → Except HTTPException (Option (String × Nat)))
    (max_retries : Nat) : Nat → Nat → Except HTTPException (Option (String × Nat)) × Nat
  | retries, 0 => (.ok none, retries)
  | retries, remaining + 1 =>
      match body retries with
      | .ok a => (.ok a, retries + 1)
      | .error e =>
          if limitMentioned e.detail ∧ retries < max_retries - 1 then
            retryOnLimitGo body max_retries (retries + 1) remaining
          else (.error e, retries + 1)

/-- `main.retry_on_limit_reached(max_retries=3)` around the handler body. -/
def retry_on_limit_reached (body : Nat → Except HTTPException (Option (String × Nat)))
    (max_retries : Nat) : Except HTTPException (Option (String × Nat)) × Nat :=
  retryOnLimitGo body max_retries 0 max_retries

/-- The `try` body of the `/process` handler (`main.process_data`): run the
processor (`max_concurrency` keeps its default 5), count the output's
tokens, reject outputs over `MAX_OUTPUT_TOKENS`, and reconcile the global
ledger with the output count.  Every exception — the processor's and the
handler's own raised 500 — is caught by `except Exception` and rewrapped as
`HTTPException(500, str(e))`.  `.ok none` = the aggregation did not finish
within `fuel`.  Returns the response text and the reconciled ledger total. -/
def process_endpoint_body (llm : Llm) (tok : String → Nat) (fuel total : Nat)
    (data : PyDict) (instr : String) : Except HTTPException (Option (String × Nat)) :=
  match process_data llm tok fuel data instr 5 with
  | .error e => .error ⟨500, pyExnStr e⟩
  | .ok none => .ok none
  | .ok (some (result, _calls)) =>
      if MAX_OUTPUT_TOKENS < tok result then
        .error ⟨500, pyExnStr (.httpExc 500
          ("Output exceeds token limit of " ++ toString MAX_OUTPUT_TOKENS ++ " tokens."))⟩
      else .ok (some (result, total + tok result))

/-- One `/process` request: the `validate_global_tokens` dependency runs
once (with projected cost `count_tokens(data) + count_tokens(instruction)`),
then the retry wrapper runs the handler body.  Returns the outcome and the
number of body runs. -/
def handle_process (llm : Llm) (tok : String → Nat) (tokD : PyDict → Nat)
    (fuel total : Nat) (data : PyDict) (instr : String) :
    Except HTTPException (Option (String × Nat)) × Nat :=
  match validate_global_tokens total (tokD data + tok instr) with
  | .error e => (.error e, 0)
  | .ok total2 =>
      retry_on_limit_reached (fun _ => process_endpoint_body llm tok fuel total2 data instr) 3

/-- C9 counterexample: a document of the wrong shape — the `tickets`
collection absent altogether — is not rejected as malformed input: the
pipeline runs on empty data and the request succeeds with a final result
(one aggregation call on the empty text), the body running once. -/
theorem missing_tickets_succeeds :
    handle_process (fun _ _ => "out") String.length (fun _ => 0) 1 0
        (PyDict.cons "foo" (PyVal.int 1) PyDict.nil) "P"
      = (.ok (some ("out", 4)), 1) ∧
    isOkE (handle_process (fun _ _ => "out") String.length (fun _ => 0) 1 0
        (PyDict.cons "foo" (PyVal.int 1) PyDict.nil) "P").1 = true := by
  exact ⟨rfl, rfl⟩

theorem process_json_error_shape :
    ∀ (l : List PyVal) (e : PyExn), process_json l = .error e →
      e = .attributeError "'str' object has no attribute 'items'" ∨
      e = .attributeError "'int' object has no attribute 'items'" ∨
      e = .attributeError "'list' object has no attribute 'items'" := by
  intro l
  induction l with
  | nil =>
      intro e h
      simp [process_json] at h
  | cons t ts ih =>
      intro e h
      cases t with
      | dict d =>
          simp only [process_json, dictToStringChecked] at h
          cases hrest : process_json ts with
          | error e2 =>
              rw [hrest] at h
              obtain rfl : e2 = e := by simpa using h
              exact ih _ hrest
          | ok rest =>
              rw [hrest] at h
              simp at h
      | str s =>
          simp only [process_json, dictToStringChecked, pyTypeName] at h
          obtain rfl : PyExn.attributeError "'str' object has no attribute 'items'" = e := by
            simpa using h
          exact Or.inl rfl
      | int n =>
          simp only [process_json, dictToStringChecked, pyTypeName] at h
          obtain rfl : PyExn.attributeError "'int' object has no attribute 'items'" = e := by
            simpa using h
          exact Or.inr (Or.inl rfl)
      | list l2 =>
          simp only [process_json, dictToStringChecked, pyTypeName] at h
          obtain rfl : PyExn.attributeError "'list' object has no attribute 'items'" = e := by
            simpa using h
          exact Or.inr (Or.inr rfl)

theorem process_json_error_no_limit (l : List PyVal) (e : PyExn)
    (h : process_json l = .error e) : limitMentioned (pyExnStr e) = false := by
  rcases process_json_error_shape l e h with rfl | rfl | rfl <;> decide

/-- C9 (amended): wrong-shape inputs do not surface a dedicated
MalformedInput (400) error.  A document whose record collection is absent is
not rejected at all: the pipeline runs on empty data and the request
succeeds after one aggregation call.  A record collection holding a
non-mapping record fails the request with a generic `HTTPException(500,
str(e))` wrapping the underlying `AttributeError`, and the capacity-retry
wrapper does not retry it (the body runs exactly once), because the detail
does not mention "limit". -/
theorem wrong_shape_not_malformed_input (llm : Llm) (tok : String → Nat)
    (tokD : PyDict → Nat) (fuel total : Nat) (data1 data2 : PyDict)
    (instr : String) (ts : PyList) (e : PyExn)
    (h1a : dictNonempty data1 = true)
    (h1b : dictLookup "tickets" data1 = none)
    (h1c : tok "" ≤ MAX_OUTPUT_TOKENS)
    (h1d : total + (tokD data1 + tok instr) ≤ GLOBAL_TOKEN_LIMIT)
    (h1e : tok (llm AGG_INSTRUCTION (.aggData "")) ≤ MAX_OUTPUT_TOKENS)
    (h2a : dictNonempty data2 = true)
    (h2b : dictLookup "tickets" data2 = some (.list ts))
    (h2c : process_json (pyListToList ts) = .error e)
    (h2d : total + (tokD data2 + tok instr) ≤ GLOBAL_TOKEN_LIMIT) :
    handle_process llm tok tokD (fuel + 1) total data1 instr =
      (.ok (some (llm AGG_INSTRUCTION (.aggData ""),
        total + (tokD data1 + tok instr) + tok (llm AGG_INSTRUCTION (.aggData "")))), 1) ∧
    handle_process llm tok tokD fuel total data2 instr = (.error ⟨500, pyExnStr e⟩, 1) := by
  constructor
  · have hval : validate_global_tokens total (tokD data1 + tok instr) =
        .ok (total + (tokD data1 + tok instr)) := by
      simp [validate_global_tokens, validateBody, Nat.not_lt.mpr h1d]
    have hu : ticketsUnits data1 = .ok [] := by
      simp [ticketsUnits, h1a, h1b]
    have hchunks : chunk_text tok [] ((MAX_CONTEXT_TOKENS : Int) - (tok instr : Int)) = [] := rfl
    have hagg : aggregate_results llm tok AGG_INSTRUCTION (fuel + 1) [] =
        some (llm AGG_INSTRUCTION (.aggData ""), [⟨AGG_INSTRUCTION, .aggData ""⟩]) := by
      have hco : String.intercalate "\n\n" ([] : List String) = "" := rfl
      simp only [aggregate_results, hco, if_pos h1c]
    have hpd : process_data llm tok (fuel + 1) data1 instr 5 =
        .ok (some (llm AGG_INSTRUCTION (.aggData ""), [⟨AGG_INSTRUCTION, .aggData ""⟩])) := by
      simp only [process_data, hu, hchunks]
      have hbat : groupBatches 5 ([] : List (List String)) = [] := rfl
      simp only [hbat, List.map_nil, List.flatten_nil, hagg, List.nil_append]
    have hbody : process_endpoint_body llm tok (fuel + 1) (total + (tokD data1 + tok instr))
        data1 instr = .ok (some (llm AGG_INSTRUCTION (.aggData ""),
          total + (tokD data1 + tok instr) + tok (llm AGG_INSTRUCTION (.aggData "")))) := by
      simp only [process_endpoint_body, hpd, if_neg (Nat.not_lt.mpr h1e)]
    simp only [handle_process, hval, retry_on_limit_reached, retryOnLimitGo, hbody]
  · have hval : validate_global_tokens total (tokD data2 + tok instr) =
        .ok (total + (tokD data2 + tok instr)) := by
      simp [validate_global_tokens, validateBody, Nat.not_lt.mpr h2d]
    have hu : ticketsUnits data2 = .error e := by
      simp [ticketsUnits, h2a, h2b, iterTickets, h2c]
    have hpd : process_data llm tok fuel data2 instr 5 = .error e := by
      simp only [process_data, hu]
    have hbody : process_endpoint_body llm tok fuel (total + (tokD data2 + tok instr))
        data2 instr = .error ⟨500, pyExnStr e⟩ := by
      simp only [process_endpoint_body, hpd]
    have hlim : limitMentioned (pyExnStr e) = false := process_json_error_no_limit _ _ h2c
    simp only [handle_process, hval, retry_on_limit_reached, retryOnLimitGo, hbody, hlim,
      Bool.false_eq_true, false_and, if_neg, ite_false]

/-- Witness for C9's amended theorem: one run without a `tickets` key, one
run whose tickets hold a non-mapping (string) record. -/
theorem wrong_shape_not_malformed_input_witness :
    handle_process (fun _ _ => "out") String.length (fun _ => 0) 1 0
        (PyDict.cons "foo" (PyVal.int 1) PyDict.nil) "P"
      = (.ok (some ("out", 4)), 1) ∧
    handle_process (fun _ _ => "out") String.length (fun _ => 0) 0 0
        (PyDict.cons "tickets" (PyVal.list (PyList.cons (PyVal.str "x") PyList.nil)) PyDict.nil)
        "P"
      = (.error ⟨500, "'str' object has no attribute 'items'"⟩, 1) :=
  wrong_shape_not_malformed_input (fun _ _ => "out") String.length (fun _ => 0) 0 0
    (PyDict.cons "foo" (PyVal.int 1) PyDict.nil)
    (PyDict.cons "tickets" (PyVal.list (PyList.cons (PyVal.str "x") PyList.nil)) PyDict.nil)
    "P" (PyList.cons (PyVal.str "x") PyList.nil)
    (.attributeError "'str' object has no attribute 'items'")
    rfl rfl (by decide) (by decide) (by decide) rfl rfl rfl (by decide)

/-! ## ConcurrencyExecutor: `utils.gather_with_concurrency` -/

/-- Status of one task in a `gather_with_concurrency(n, *tasks)` run:
waiting to acquire the semaphore, running with some internal suspension
steps left, or done.  `val` is the task's eventual result;
`asyncio.gather` stores each result at its task's input index, which the
embedding keeps by leaving every task at its list position. -/
inductive TaskState (α : Type) where
  | waiting (work : Nat) (val : α)
  | running (work : Nat) (val : α)
  | done (val : α)

/-- Whether a task has acquired the semaphore and not yet finished. -/
def isRunningT : TaskState α → Bool
  | .running _ _ => true
  | _ => false

/-- Whether a task has finished. -/
def isDoneT : TaskState α → Bool
  | .done _ => true
  | _ => false

/-- The task's (eventual) result value. -/
def valOfT : TaskState α → α
  | .waiting _ v => v
  | .running _ v => v
  | .done v => v

/-- Global state of a run: free semaphore permits and the tasks by index. -/
structure GatherState (α : Type) where
  sem : Nat
  tasks : List (TaskState α)

/-- Start of `gather_with_concurrency(n, *tasks)`: `asyncio.Semaphore(n)`
full, every task waiting.  `spec` gives each task's internal step count and
result value, in input order. -/
def initGather (n : Nat) (spec : List (Nat × α)) : GatherState α :=
  ⟨n, spec.map (fun p => .waiting p.1 p.2)⟩

/-- One scheduler step, in any interleaving: a waiting task may start only
when a permit is free (`sem_task` acquires the semaphore before awaiting
its task); a running task may take an internal step; a running task with no
work left finishes and releases its permit. -/
inductive GatherStep : GatherState α → GatherState α → Prop where
  | start (i w : Nat) (v : α) (s : GatherState α) :
      s.tasks[i]? = some (.waiting w v) → 0 < s.sem →
      GatherStep s ⟨s.sem - 1, s.tasks.set i (.running w v)⟩
  | work (i w : Nat) (v : α) (s : GatherState α) :
      s.tasks[i]? = some (.running (w + 1) v) →
      GatherStep s ⟨s.sem, s.tasks.set i (.running w v)⟩
  | finish (i : Nat) (v : α) (s : GatherState α) :
      s.tasks[i]? = some (.running 0 v) →
      GatherStep s ⟨s.sem + 1, s.tasks.set i (.done v)⟩

theorem countP_set_eq (p : α → Bool) :
    ∀ (l : List α) (i : Nat) (a b : α), l[i]? = some b →
      (l.set i a).countP p + (if p b then 1 else 0) =
        l.countP p + (if p a then 1 else 0) := by
  intro l
  induction l with
  | nil => intro i a b h; simp at h
  | cons x t ih =>
      intro i a b h
      cases i with
      | zero =>
          simp only [List.getElem?_cons_zero, Option.some.injEq] at h
          subst h
          simp [List.countP_cons]
          omega
      | succ j =>
          simp only [List.getElem?_cons_succ] at h
          simp only [List.set_cons_succ, List.countP_cons]
          have := ih j a b h
          omega

theorem map_set_eq (f : α → β) :
    ∀ (l : List α) (i : Nat) (a b : α), l[i]? = some b → f a = f b →
      (l.set i a).map f = l.map f := by
  intro l
  induction l with
  | nil => intro i a b h _; simp at h
  | cons x t ih =>
      intro i a b h hf
      cases i with
      | zero =>
          simp only [List.getElem?_cons_zero, Option.some.injEq] at h
          subst h
          simp [hf]
      | succ j =>
          simp only [List.getElem?_cons_succ] at h
          simp [ih j a b h hf]

/-- The run invariant: running tasks plus free permits equal the limit, and
the value at each index never changes. -/
def gatherInv (K : Nat) (spec : List (Nat × α)) (s : GatherState α) : Prop :=
  s.tasks.countP isRunningT + s.sem = K ∧ s.tasks.map valOfT = spec.map Prod.snd

theorem gatherInv_init (K : Nat) (spec : List (Nat × α)) :
    gatherInv K spec (initGather K spec) := by
  constructor
  · have : (spec.map (fun p => (TaskState.waiting p.1 p.2 : TaskState α))).countP isRunningT
        = 0 := by
      rw [List.countP_eq_zero]
      intro t ht
      obtain ⟨p, -, rfl⟩ := List.mem_map.mp ht
      simp [isRunningT]
    simp [initGather, this]
  · simp only [initGather, List.map_map]
    have : (valOfT ∘ fun p : Nat × α => (TaskState.waiting p.1 p.2 : TaskState α)) =
        Prod.snd := by
      funext p
      rfl
    rw [this]

theorem gatherInv_step (K : Nat) (spec : List (Nat × α)) (s s2 : GatherState α)
    (h : GatherStep s s2) (hi : gatherInv K spec s) : gatherInv K spec s2 := by
  obtain ⟨hc, hv⟩ := hi
  cases h with
  | start i w v s hg hs =>
      constructor
      · have h2 := countP_set_eq isRunningT s.tasks i (.running w v) (.waiting w v) hg
        simp [isRunningT] at h2
        show (s.tasks.set i (.running w v)).countP isRunningT + (s.sem - 1) = K
        omega
      · show (s.tasks.set i (.running w v)).map valOfT = spec.map Prod.snd
        rw [map_set_eq valOfT s.tasks i (.running w v) (.waiting w v) hg rfl]
        exact hv
  | work i w v s hg =>
      constructor
      · have h2 := countP_set_eq isRunningT s.tasks i (.running w v) (.running (w + 1) v) hg
        simp [isRunningT] at h2
        show (s.tasks.set i (.running w v)).countP isRunningT + s.sem = K
        omega
      · show (s.tasks.set i (.running w v)).map valOfT = spec.map Prod.snd
        rw [map_set_eq valOfT s.tasks i (.running w v) (.running (w + 1) v) hg rfl]
        exact hv
  | finish i v s hg =>
      constructor
      · have h2 := countP_set_eq isRunningT s.tasks i (.done v) (.running 0 v) hg
        simp [isRunningT] at h2
        show (s.tasks.set i (.done v)).countP isRunningT + (s.sem + 1) = K
        omega
      · show (s.tasks.set i (.done v)).map valOfT = spec.map Prod.snd
        rw [map_set_eq valOfT s.tasks i (.done v) (.running 0 v) hg rfl]
        exact hv

/-- C6: in every state reachable from the start of a
`gather_with_concurrency(K, *tasks)` run, at most `K` tasks have acquired
the semaphore and not yet finished; and when every task is done, the result
at each index is the value of the task that was given at that index — the
outcome order equals the input order, whatever the interleaving. -/
theorem gather_with_concurrency_bound_and_order (α : Type) (spec : List (Nat × α))
    (K : Nat) (_h0 : 0 < K) (_hK : K ≤ spec.length) (s : GatherState α)
    (hr : Relation.ReflTransGen GatherStep (initGather K spec) s) :
    s.tasks.countP isRunningT ≤ K ∧
    ((∀ t ∈ s.tasks, isDoneT t = true) → s.tasks.map valOfT = spec.map Prod.snd) := by
  have hinv : gatherInv K spec s := by
    induction hr with
    | refl => exact gatherInv_init K spec
    | tail hstep hlast ih => exact gatherInv_step K spec _ _ hlast ih
  exact ⟨by have := hinv.1; omega, fun _ => hinv.2⟩

/-- Witness for C6: the one-task run with limit 1 driven to completion. -/
theorem gather_with_concurrency_bound_and_order_witness :
    (GatherState.tasks (⟨1, [TaskState.done "a"]⟩ : GatherState String)).countP isRunningT ≤ 1 ∧
    ((∀ t ∈ (GatherState.tasks (⟨1, [TaskState.done "a"]⟩ : GatherState String)),
        isDoneT t = true) →
      (GatherState.tasks (⟨1, [TaskState.done "a"]⟩ : GatherState String)).map valOfT =
        ([(0, "a")] : List (Nat × String)).map Prod.snd) := by
  refine gather_with_concurrency_bound_and_order String [(0, "a")] 1 (by decide) (by decide)
    ⟨1, [TaskState.done "a"]⟩ ?_
  have step1 : GatherStep (initGather 1 [(0, "a")])
      (⟨0, [TaskState.running 0 "a"]⟩ : GatherState String) :=
    GatherStep.start 0 0 "a" (initGather 1 [(0, "a")]) rfl (by decide)
  have step2 : GatherStep (⟨0, [TaskState.running 0 "a"]⟩ : GatherState String)
      (⟨1, [TaskState.done "a"]⟩ : GatherState String) :=
    GatherStep.finish 0 "a" ⟨0, [TaskState.running 0 "a"]⟩ rfl
  exact Relation.ReflTransGen.tail (Relation.ReflTransGen.tail Relation.ReflTransGen.refl step1)
    step2
